import Mathlib

/-!
Shallow embedding of `src/main.py` (StackBot, a Mastodon boost bot).

Modelling conventions:
* Numeric event/status identifiers are `Nat` (the Python code compares them
  via `int(...)`); the state cursor `last_notification_id` is `Option Nat`
  (Python `None` / id value).  Where the code stores the cursor as a string
  (`str(max_id)`, line 104) we expose the stored form via `Nat.repr`.
* Timestamps (`time.time()` floats) and `MIN_BOOST_INTERVAL_SECONDS` are
  modelled as `Int`; all the code does with them is subtract and compare.
* Python dicts keyed by strings are association lists `List (String × Int)`
  with unique keys maintained by `insertTs` (dict assignment) and read with
  `List.lookup` (`dict.get`).
* The JSON file contents are abstracted as `FileContent`: either a complete
  serialized state document or unparseable bytes; `json.load` on the latter
  raises (modelled as `Except.error`).
* Network calls are oracles supplied per cycle: `FetchResult` is the outcome
  of `mastodon.notifications(...)`, and `reblogOk : Nat → Bool` tells whether
  `mastodon.status_reblog(id)` would succeed for a given status id.
-/

namespace StackBot

/-- The `status` object attached to a mention notification: its numeric id
and the author field `status["account"]["acct"]` (absent → `none`; Python
treats the empty string as falsy, which we keep as `some ""`). -/
structure Status where
  id : Nat
  acct : Option String
deriving DecidableEq, Repr

/-- A notification item from the stream: numeric id, `type` tag, optional
referenced status. -/
structure Notification where
  id : Nat
  ntype : String
  status : Option Status
deriving DecidableEq, Repr

/-- The persisted state document (`load_state` / `save_state`):
`last_notification_id`, `last_boost_per_user`, `boosted_status_ids`. -/
structure BotState where
  last_notification_id : Option Nat
  last_boost_per_user : List (String × Int)
  boosted_status_ids : List (String × Int)
deriving DecidableEq, Repr

/-- The fresh document returned by `load_state` when no file exists
(main.py lines 24-28). -/
def freshState : BotState :=
  { last_notification_id := none
    last_boost_per_user := []
    boosted_status_ids := [] }

/-- Python `dict.get(k, 0)` on a timestamp table. -/
def getTs (m : List (String × Int)) (k : String) : Int :=
  (List.lookup k m).getD 0

/-- Python `k in dict` on a timestamp table. -/
def hasKey (m : List (String × Int)) (k : String) : Bool :=
  (List.lookup k m).isSome

/-- Python `dict[k] = v`: replaces any existing binding, keeping keys
unique. -/
def insertTs (m : List (String × Int)) (k : String) (v : Int) : List (String × Int) :=
  (k, v) :: m.filter (fun p => p.1 ≠ k)

/-- `prune_state` (main.py lines 40-52): keep `last_boost_per_user` entries
with `now - ts <= min_interval * 2` and `boosted_status_ids` entries with
`now - ts <= 24 * 3600`. -/
def pruneState (st : BotState) (now : Int) (minInterval : Int) : BotState :=
  { st with
    last_boost_per_user :=
      st.last_boost_per_user.filter (fun p => now - p.2 ≤ minInterval * 2)
    boosted_status_ids :=
      st.boosted_status_ids.filter (fun p => now - p.2 ≤ 24 * 3600) }

/-- Outcome of the per-item policy chain in the loop body
(main.py lines 130-153): the spec's `Decision` labels, assigned to the
code's `continue` branches in the order the code tests them. -/
inductive Decision where
  | act
  | skipType
  | skipNoReferencedItem
  | skipSelf
  | skipRateLimited
  | skipDuplicate
deriving DecidableEq, Repr

/-- The reaction-policy decision for one notification, translated branch by
branch from main.py lines 130-153:
`type != "mention"` → skipType; `not status` → skipNoReferencedItem;
`not acct` (absent or empty) → skipNoReferencedItem;
`acct == bot_acct` → skipSelf;
`now - last_boost_per_user.get(acct, 0) < min_interval` → skipRateLimited;
`str(status["id"]) in boosted_status_ids` → skipDuplicate; else act. -/
def shouldAct (item : Notification) (st : BotState) (botAcct : String)
    (now : Int) (minInterval : Int) : Decision :=
  if item.ntype ≠ "mention" then .skipType
  else
    match item.status with
    | none => .skipNoReferencedItem
    | some status =>
      match status.acct with
      | none => .skipNoReferencedItem
      | some acct =>
        if acct = "" then .skipNoReferencedItem
        else if acct = botAcct then .skipSelf
        else if now - getTs st.last_boost_per_user acct < minInterval then
          .skipRateLimited
        else if hasKey st.boosted_status_ids (Nat.repr status.id) then
          .skipDuplicate
        else .act

/-- One iteration of the per-item loop (main.py lines 128-163), threading
the state together with the list of `status_reblog` calls attempted.  The
cursor is set to the item id first (line 129); on `act` the reblog call is
attempted, and only on success are the two tables updated (lines 155-162).
The decision chain (lines 130-153) runs after the cursor write, but reads
only the two tables, which that write leaves unchanged, so evaluating it on
the pre-write state is definitionally the same (`shouldAct_cursor_irrel`
below). -/
def stepItem (botAcct : String) (minInterval : Int) (now : Int)
    (reblogOk : Nat → Bool) (acc : BotState × List Nat)
    (item : Notification) : BotState × List Nat :=
  match shouldAct item acc.1 botAcct now minInterval, item.status with
  | .act, some status =>
    if reblogOk status.id then
      ({ last_notification_id := some item.id
         last_boost_per_user :=
           insertTs acc.1.last_boost_per_user (status.acct.getD "") now
         boosted_status_ids :=
           insertTs acc.1.boosted_status_ids (Nat.repr status.id) now },
       acc.2 ++ [status.id])
    else ({ acc.1 with last_notification_id := some item.id },
          acc.2 ++ [status.id])
  | _, _ => ({ acc.1 with last_notification_id := some item.id }, acc.2)

/-- The sort on line 128: `sorted(notifications, key=lambda n: int(n["id"]))`. -/
def sortBatch (batch : List Notification) : List Notification :=
  batch.mergeSort (fun a b => a.id ≤ b.id)

/-- Processing one fetched batch (main.py lines 128-163): sort ascending by
numeric id, then fold the per-item step.  Returns the final state and the
ids of all attempted reblog calls. -/
def processBatch (botAcct : String) (minInterval : Int) (now : Int)
    (reblogOk : Nat → Bool) (st : BotState)
    (batch : List Notification) : BotState × List Nat :=
  (sortBatch batch).foldl (stepItem botAcct minInterval now reblogOk) (st, [])

/-- `max(int(item["id"]) for item in notifications)` (main.py line 103),
as a fold; meaningful for nonempty batches. -/
def maxIds (batch : List Notification) : Nat :=
  (batch.map (fun n => n.id)).foldl max 0

/-- Result of a `mastodon.notifications(...)` call: the fetched items, or a
`MastodonNetworkError`/`MastodonAPIError`. -/
inductive FetchResult where
  | ok (items : List Notification)
  | fail
deriving DecidableEq, Repr

/-- What one pass of the `while True` body does.  `fatal` models an
exception escaping `main` (the process dies); `slept st saved calls` models
reaching `time.sleep(poll_interval)` with in-memory state `st`, `saved`
telling whether `save_state` was called this cycle, and `calls` the status
ids for which `status_reblog` was attempted. -/
inductive CycleOutcome where
  | fatal
  | slept (st : BotState) (saved : Bool) (calls : List Nat)
deriving Repr

/-- One pass of the main loop body (main.py lines 96-167): take `now`, prune,
then either the startup skip-existing branch (lines 100-111; its
`mastodon.notifications()` call is NOT inside a try/except, so a network
fault there escapes `main`), or the guarded since_id fetch (lines 113-120)
followed by batch processing and a save when the batch was nonempty. -/
def runCycle (botAcct : String) (minInterval : Int) (skipExisting : Bool)
    (now : Int) (fetch : FetchResult) (reblogOk : Nat → Bool)
    (st : BotState) : CycleOutcome :=
  let st := pruneState st now minInterval
  match st.last_notification_id, skipExisting with
  | none, true =>
    match fetch with
    | .fail => .fatal
    | .ok items =>
      if items.isEmpty then .slept st false []
      else
        .slept { st with last_notification_id := some (maxIds items) } true []
  | _, _ =>
    match fetch with
    | .fail => .slept st false []
    | .ok items =>
      if items.isEmpty then .slept st false []
      else
        let r := processBatch botAcct minInterval now reblogOk st items
        .slept r.1 true r.2

/-- The stored (on-disk) form of the cursor: the startup branch stores
`str(max_id)` (main.py line 104). -/
def cursorStored (st : BotState) : Option String :=
  st.last_notification_id.map Nat.repr

/-- Contents of a file on disk: a complete serialized state document, or
bytes that `json.load` cannot parse. -/
inductive FileContent where
  | doc (d : BotState)
  | garbage (bytes : String)
deriving DecidableEq, Repr

/-- The parse failure `json.load` raises on an unparseable state file; the
spec calls it `CorruptStateError`.  It escapes `main` (fatal). -/
inductive CorruptStateError where
  | corrupt
deriving DecidableEq, Repr

/-- `load_state` (main.py lines 22-30) reading a file that is absent
(`none`), parseable, or unparseable. -/
def loadState (file : Option FileContent) : Except CorruptStateError BotState :=
  match file with
  | none => .ok freshState
  | some (.doc d) => .ok d
  | some (.garbage _) => .error .corrupt

/-- The two paths `save_state` touches: the target state file and the
`.tmp` file it writes first (main.py lines 33-37). -/
structure Disk where
  main : Option FileContent
  tmp : Option FileContent
deriving DecidableEq, Repr

/-- Where a crash can interrupt `save_state` (main.py lines 33-37):
before anything is written; mid-way through writing the temp file (leaving
arbitrary bytes there); after the temp write completes; after the atomic
`tmp_path.replace(path)`.  `replace` is atomic, so there is no intermediate
point inside it. -/
inductive CrashPoint where
  | start
  | midTmpWrite (partialContent : FileContent)
  | tmpWritten
  | done
deriving Repr

/-- The disk as left by `save_state disk doc` crashing at a given point.
Only the temp path is written before the final atomic rename. -/
def saveCrash (disk : Disk) (doc : BotState) : CrashPoint → Disk
  | .start => disk
  | .midTmpWrite c => { disk with tmp := some c }
  | .tmpWritten => { disk with tmp := some (.doc doc) }
  | .done => { main := some (.doc doc), tmp := none }

/-- What `load_state` returns on restart: it reads only the target path. -/
def loadDisk (disk : Disk) : Except CorruptStateError BotState :=
  loadState disk.main

/-- Cursor comparison used for monotonicity: once the first cursor is
non-null, the second is non-null and numerically no smaller. -/
def cursorLE (a b : Option Nat) : Prop :=
  ∀ x, a = some x → ∃ y, b = some y ∧ x ≤ y

/-- C6: prune removes exactly the `last_boost_per_user` entries whose
timestamp is older than `2 * min_interval` seconds before `now` and exactly
the `boosted_status_ids` entries older than the fixed 86400-second horizon,
retaining all others; concretely, with `now = 90*3600`, an entry stamped
`now - 25h` is removed and one stamped `now - 23h` is retained. -/
theorem prune_exact :
    (∀ (st : BotState) (now mi : Int) (k : String) (v : Int),
      (k, v) ∈ (pruneState st now mi).last_boost_per_user ↔
        ((k, v) ∈ st.last_boost_per_user ∧ ¬ v < now - 2 * mi)) ∧
    (∀ (st : BotState) (now mi : Int) (k : String) (v : Int),
      (k, v) ∈ (pruneState st now mi).boosted_status_ids ↔
        ((k, v) ∈ st.boosted_status_ids ∧ ¬ v < now - 86400)) ∧
    (hasKey (pruneState
        ⟨none, [], [("old", 90*3600 - 25*3600), ("new", 90*3600 - 23*3600)]⟩
        (90*3600) 3600).boosted_status_ids "old" = false ∧
     hasKey (pruneState
        ⟨none, [], [("old", 90*3600 - 25*3600), ("new", 90*3600 - 23*3600)]⟩
        (90*3600) 3600).boosted_status_ids "new" = true) := by
  refine ⟨?_, ?_, by decide⟩ <;>
    · intro st now mi k v
      simp only [pruneState, List.mem_filter, decide_eq_true_eq]
      constructor
      · rintro ⟨h1, h2⟩
        exact ⟨h1, by omega⟩
      · rintro ⟨h1, h2⟩
        exact ⟨h1, by omega⟩

/-- C10: for every state document, time and interval, pruning leaves the
cursor `last_notification_id` unchanged; the two tables are only filtered
(every surviving entry was already present, in order). -/
theorem prune_frame :
    ∀ (st : BotState) (now mi : Int),
      (pruneState st now mi).last_notification_id = st.last_notification_id ∧
      (pruneState st now mi).last_boost_per_user.Sublist st.last_boost_per_user ∧
      (pruneState st now mi).boosted_status_ids.Sublist st.boosted_status_ids := by
  intro st now mi
  exact ⟨rfl, List.filter_sublist _, List.filter_sublist _⟩

/-- C9: with no state file, `load_state` returns a fresh document with a
null cursor and empty tables; with an unparseable file it fails with the
corrupt-state error and never returns any document (in particular it never
silently resets to the fresh one). -/
theorem load_missing_fresh_corrupt_fatal :
    loadState none = .ok freshState ∧
    freshState.last_notification_id = none ∧
    freshState.last_boost_per_user = [] ∧
    freshState.boosted_status_ids = [] ∧
    (∀ bytes : String, loadState (some (.garbage bytes)) = .error .corrupt) ∧
    (∀ (bytes : String) (st : BotState),
      loadState (some (.garbage bytes)) ≠ .ok st) := by
  refine ⟨rfl, rfl, rfl, rfl, fun bytes => rfl, fun bytes st h => ?_⟩
  simp [loadState] at h

/-- C5: `save_state` writes the document to a temporary path and atomically
renames it over the target, so a crash at any point during the save leaves
`load` returning a complete document: either the previously saved one or
the new one, never a partial file. -/
theorem save_crash_atomic :
    ∀ (disk : Disk) (oldDoc newDoc : BotState) (cp : CrashPoint),
      disk.main = some (.doc oldDoc) →
      loadDisk (saveCrash disk newDoc cp) = .ok oldDoc ∨
        loadDisk (saveCrash disk newDoc cp) = .ok newDoc := by
  intro disk oldDoc newDoc cp h
  cases cp <;> simp [saveCrash, loadDisk, loadState, h]

/-- C5 witness: concrete crash points on a disk holding a saved fresh
document, saving a different document. -/
theorem save_crash_atomic_witness :
    (loadDisk (saveCrash ⟨some (.doc freshState), none⟩
        ⟨some 5, [("a", 3)], []⟩ .done) = .ok freshState ∨
      loadDisk (saveCrash ⟨some (.doc freshState), none⟩
        ⟨some 5, [("a", 3)], []⟩ .done) = .ok ⟨some 5, [("a", 3)], []⟩) :=
  save_crash_atomic ⟨some (.doc freshState), none⟩ freshState
    ⟨some 5, [("a", 3)], []⟩ .done rfl

/-- The policy decision does not depend on the cursor field, only on the
two tables. -/
theorem shouldAct_cursor_irrel (item : Notification) (st : BotState)
    (c : Option Nat) (botAcct : String) (now mi : Int) :
    shouldAct item { st with last_notification_id := c } botAcct now mi =
      shouldAct item st botAcct now mi := rfl

/-- C1: the per-event policy tests its skip/act reasons in the fixed
short-circuit order type, referenced-item-with-actor, self, rate-limit,
dedup; the first matching reason wins (earlier conjuncts hold for every
state and time, so later checks are never consulted), the reaction call is
attempted exactly when the decision is `act`. -/
theorem boost_policy_order :
    (∀ (item : Notification) (st : BotState) (botAcct : String) (now mi : Int),
      item.ntype ≠ "mention" →
      shouldAct item st botAcct now mi = .skipType) ∧
    (∀ (item : Notification) (st : BotState) (botAcct : String) (now mi : Int),
      item.ntype = "mention" →
      (item.status = none ∨
        ∃ s, item.status = some s ∧ (s.acct = none ∨ s.acct = some "")) →
      shouldAct item st botAcct now mi = .skipNoReferencedItem) ∧
    (∀ (item : Notification) (st : BotState) (botAcct : String) (now mi : Int)
        (s : Status),
      item.ntype = "mention" → item.status = some s →
      s.acct = some botAcct → botAcct ≠ "" →
      shouldAct item st botAcct now mi = .skipSelf) ∧
    (∀ (item : Notification) (st : BotState) (botAcct : String) (now mi : Int)
        (s : Status) (a : String),
      item.ntype = "mention" → item.status = some s → s.acct = some a →
      a ≠ "" → a ≠ botAcct →
      now - getTs st.last_boost_per_user a < mi →
      shouldAct item st botAcct now mi = .skipRateLimited) ∧
    (∀ (item : Notification) (st : BotState) (botAcct : String) (now mi : Int)
        (s : Status) (a : String),
      item.ntype = "mention" → item.status = some s → s.acct = some a →
      a ≠ "" → a ≠ botAcct →
      ¬ now - getTs st.last_boost_per_user a < mi →
      hasKey st.boosted_status_ids (Nat.repr s.id) = true →
      shouldAct item st botAcct now mi = .skipDuplicate) ∧
    (∀ (item : Notification) (st : BotState) (botAcct : String) (now mi : Int)
        (s : Status) (a : String),
      item.ntype = "mention" → item.status = some s → s.acct = some a →
      a ≠ "" → a ≠ botAcct →
      ¬ now - getTs st.last_boost_per_user a < mi →
      hasKey st.boosted_status_ids (Nat.repr s.id) = false →
      shouldAct item st botAcct now mi = .act) ∧
    (∀ (botAcct : String) (mi now : Int) (reblogOk : Nat → Bool)
        (acc : BotState × List Nat) (item : Notification),
      (shouldAct item acc.1 botAcct now mi = .act →
        ∃ s, item.status = some s ∧
          (stepItem botAcct mi now reblogOk acc item).2 = acc.2 ++ [s.id]) ∧
      (shouldAct item acc.1 botAcct now mi ≠ .act →
        (stepItem botAcct mi now reblogOk acc item).2 = acc.2)) := by
  refine ⟨?_, ?_, ?_, ?_, ?_, ?_, ?_⟩
  · intro item st botAcct now mi h
    simp [shouldAct, h]
  · intro item st botAcct now mi hty hcase
    rcases hcase with hs | ⟨s, hs, hna⟩
    · simp [shouldAct, hty, hs]
    · rcases hna with hna | hna <;> simp [shouldAct, hty, hs, hna]
  · intro item st botAcct now mi s hty hs ha hne
    simp [shouldAct, hty, hs, ha, hne]
  · intro item st botAcct now mi s a hty hs ha hne hnb hrl
    simp [shouldAct, hty, hs, ha, hne, hnb, hrl]
  · intro item st botAcct now mi s a hty hs ha hne hnb hrl hdup
    simp [shouldAct, hty, hs, ha, hne, hnb, hrl, hdup]
  · intro item st botAcct now mi s a hty hs ha hne hnb hrl hdup
    simp [shouldAct, hty, hs, ha, hne, hnb, hrl, hdup]
  · intro botAcct mi now reblogOk acc item
    constructor
    · intro hact
      cases hstat : item.status with
      | none =>
        exfalso
        simp [shouldAct, hstat] at hact
        split at hact <;> simp_all
      | some s =>
        refine ⟨s, rfl, ?_⟩
        unfold stepItem
        rw [hact, hstat]
        by_cases hok : reblogOk s.id = true <;> simp [hok]
    · intro hact
      unfold stepItem
      cases hd : shouldAct item acc.1 botAcct now mi <;>
        cases hstat : item.status <;> simp_all

/-- C1 witness: a qualifying mention from an unseen actor on the fresh
state yields `act`. -/
theorem boost_policy_order_witness :
    shouldAct ⟨7, "mention", some ⟨9, some "alice"⟩⟩ freshState "bot" 5000 3600
      = .act :=
  boost_policy_order.2.2.2.2.2.1 ⟨7, "mention", some ⟨9, some "alice"⟩⟩
    freshState "bot" 5000 3600 ⟨9, some "alice"⟩ "alice" rfl rfl rfl
    (by decide) (by decide) (by decide) (by decide)

/-- C8 counterexample: the claim says an actor with no entry in
`last_boost_per_user` passes the rate-limit check for every `now` and
`min_interval`; but the implicit last-action time is `0`, so with
`now = 0 < min_interval = 3600` the unseen actor "alice" is skipped as
rate-limited. -/
theorem unseen_actor_rate_limited_cex :
    shouldAct ⟨1, "mention", some ⟨2, some "alice"⟩⟩ freshState "bot" 0 3600
        = .skipRateLimited ∧
      List.lookup "alice" freshState.last_boost_per_user = none := by
  decide

/-- C8 amended: an event reaching the rate-limit check is skipped as
rate-limited exactly when `now - last_boost_per_user.get(actor, 0) <
min_interval`; an actor with no entry has the implicit last-action time 0
and therefore passes whenever `min_interval ≤ now` (not for every `now`). -/
theorem rate_limit_iff :
    (∀ (item : Notification) (st : BotState) (botAcct : String) (now mi : Int)
        (s : Status) (a : String),
      item.ntype = "mention" → item.status = some s → s.acct = some a →
      a ≠ "" → a ≠ botAcct →
      (shouldAct item st botAcct now mi = .skipRateLimited ↔
        now - getTs st.last_boost_per_user a < mi)) ∧
    (∀ (item : Notification) (st : BotState) (botAcct : String) (now mi : Int)
        (s : Status) (a : String),
      item.ntype = "mention" → item.status = some s → s.acct = some a →
      a ≠ "" → a ≠ botAcct →
      List.lookup a st.last_boost_per_user = none →
      mi ≤ now →
      shouldAct item st botAcct now mi ≠ .skipRateLimited) := by
  have key : ∀ (item : Notification) (st : BotState) (botAcct : String)
      (now mi : Int) (s : Status) (a : String),
      item.ntype = "mention" → item.status = some s → s.acct = some a →
      a ≠ "" → a ≠ botAcct →
      (shouldAct item st botAcct now mi = .skipRateLimited ↔
        now - getTs st.last_boost_per_user a < mi) := by
    intro item st botAcct now mi s a hty hs ha hne hnb
    constructor
    · intro h
      by_contra hrl
      by_cases hdup : hasKey st.boosted_status_ids (Nat.repr s.id) = true <;>
        simp [shouldAct, hty, hs, ha, hne, hnb, hrl, hdup] at h
    · intro hrl
      simp [shouldAct, hty, hs, ha, hne, hnb, hrl]
  refine ⟨key, ?_⟩
  intro item st botAcct now mi s a hty hs ha hne hnb hnone hmi hcontra
  rw [key item st botAcct now mi s a hty hs ha hne hnb] at hcontra
  simp [getTs, hnone] at hcontra
  omega

/-- C8 witness: at `now = 200` with a last boost at `100` and an hour
interval, the actor is rate-limited, matching the inequality. -/
theorem rate_limit_iff_witness :
    (shouldAct ⟨1, "mention", some ⟨2, some "alice"⟩⟩
        ⟨none, [("alice", 100)], []⟩ "bot" 200 3600 = .skipRateLimited ↔
      (200 : Int) - getTs [("alice", 100)] "alice" < 3600) :=
  rate_limit_iff.1 ⟨1, "mention", some ⟨2, some "alice"⟩⟩
    ⟨none, [("alice", 100)], []⟩ "bot" 200 3600 ⟨2, some "alice"⟩ "alice"
    rfl rfl rfl (by decide) (by decide)

/-- Folding `max` distributes over a hoisted accumulator component. -/
theorem foldl_max_acc (l : List Nat) : ∀ (a b : Nat),
    List.foldl max (max a b) l = max a (List.foldl max b l) := by
  induction l with
  | nil => intro a b; rfl
  | cons x t ih =>
    intro a b
    rw [List.foldl_cons, List.foldl_cons, Nat.max_assoc, ih a (max b x)]

/-- Recursive characterization of the batch maximum. -/
theorem maxIds_cons (x : Notification) (t : List Notification) :
    maxIds (x :: t) = max x.id (maxIds t) := by
  unfold maxIds
  rw [List.map_cons, List.foldl_cons, Nat.max_comm 0 x.id]
  exact foldl_max_acc (t.map fun n => n.id) x.id 0

/-- The batch maximum is invariant under permutation. -/
theorem maxIds_perm {l l' : List Notification} (h : l.Perm l') :
    maxIds l = maxIds l' := by
  induction h with
  | nil => rfl
  | cons x _ ih => rw [maxIds_cons, maxIds_cons, ih]
  | swap x y t =>
    rw [maxIds_cons, maxIds_cons, maxIds_cons, maxIds_cons,
      Nat.max_left_comm]
  | trans _ _ ih1 ih2 => rw [ih1, ih2]

/-- In a list sorted ascending by id, the last element realizes the batch
maximum. -/
theorem maxIds_sorted_last : ∀ (s : List Notification),
    s.Pairwise (fun a b => a.id ≤ b.id) → (h : s ≠ []) →
    maxIds s = (s.getLast h).id := by
  intro s
  induction s with
  | nil => intro _ h; exact absurd rfl h
  | cons x t ih =>
    intro hpw h
    cases t with
    | nil => simp [maxIds_cons, maxIds]
    | cons y t2 =>
      rw [maxIds_cons, List.getLast_cons (by simp),
        ih (List.pairwise_cons.mp hpw).2 (by simp)]
      have hmem : (y :: t2).getLast (by simp) ∈ y :: t2 :=
        List.getLast_mem (by simp)
      have hle := (List.pairwise_cons.mp hpw).1 _ hmem
      omega

/-- The sort on line 128 is a permutation of the fetched batch. -/
theorem sortBatch_perm (batch : List Notification) :
    (sortBatch batch).Perm batch :=
  List.mergeSort_perm batch _

/-- The sort on line 128 is ascending by numeric id. -/
theorem sortBatch_sorted (batch : List Notification) :
    (sortBatch batch).Pairwise (fun a b => a.id ≤ b.id) := by
  have h := @List.sorted_mergeSort Notification
    (fun a b => decide (a.id ≤ b.id))
    (fun a b c hab hbc => by
      simp only [decide_eq_true_eq] at hab hbc ⊢
      omega)
    (fun a b => by
      simp only [Bool.or_eq_true, decide_eq_true_eq]
      omega)
    batch
  exact h.imp (fun hab => by simpa using hab)

/-- The per-item step always writes the item id into the cursor. -/
theorem stepItem_cursor (botAcct : String) (mi now : Int)
    (reblogOk : Nat → Bool) (acc : BotState × List Nat)
    (item : Notification) :
    (stepItem botAcct mi now reblogOk acc item).1.last_notification_id =
      some item.id := by
  unfold stepItem
  cases shouldAct item acc.1 botAcct now mi <;> cases item.status <;>
    first
      | rfl
      | (split <;> first
          | rfl
          | (split <;> rfl))

/-- After folding the per-item step over a nonempty list, the cursor holds
the last processed item's id. -/
theorem foldl_cursor_last (botAcct : String) (mi now : Int)
    (reblogOk : Nat → Bool) : ∀ (l : List Notification)
    (acc : BotState × List Nat) (h : l ≠ []),
    (l.foldl (stepItem botAcct mi now reblogOk) acc).1.last_notification_id
      = some ((l.getLast h).id) := by
  intro l
  induction l with
  | nil => intro acc h; exact absurd rfl h
  | cons x t ih =>
    intro acc h
    cases t with
    | nil => simpa using stepItem_cursor botAcct mi now reblogOk acc x
    | cons y t2 =>
      rw [List.foldl_cons, List.getLast_cons (by simp)]
      exact ih (stepItem botAcct mi now reblogOk acc x) (by simp)

/-- A lookup for a key other than `k` passes through the deletion of `k`
performed by dict assignment. -/
theorem lookup_filter_ne (k k' : String) (h : k' ≠ k) :
    ∀ m : List (String × Int),
      List.lookup k' (m.filter (fun p => p.1 ≠ k)) = List.lookup k' m := by
  intro m
  induction m with
  | nil => rfl
  | cons p t ih =>
    obtain ⟨pk, pv⟩ := p
    rw [List.filter_cons]
    by_cases hp : pk = k
    · have h1 : (decide ((pk, pv).1 ≠ k)) = false := by simp [hp]
      rw [h1]
      have hk : (k' == pk) = false := beq_eq_false_iff_ne.mpr (hp ▸ h)
      simp only [Bool.false_eq_true, if_false, List.lookup_cons, hk, ih]
    · have h1 : (decide ((pk, pv).1 ≠ k)) = true := by simp [hp]
      rw [h1]
      simp only [if_true, List.lookup_cons]
      cases hk : k' == pk with
      | true => rfl
      | false => exact ih

/-- Key membership after dict assignment: the new key, or any key that was
already present. -/
theorem hasKey_insertTs (m : List (String × Int)) (k k' : String) (v : Int) :
    hasKey (insertTs m k v) k' = true ↔ (k' = k ∨ hasKey m k' = true) := by
  by_cases h : k' = k
  · subst h
    simp [hasKey, insertTs, List.lookup]
  · simp only [hasKey, insertTs, List.lookup]
    have hk : (k' == k) = false := by
      simp
      exact h
    rw [hk]
    simp only [lookup_filter_ne k k' h m]
    simp [h]

/-- One step can add a `boosted_status_ids` key only for its own item's
status, and only when the reblog oracle reports success. -/
theorem stepItem_boosted_key (botAcct : String) (mi now : Int)
    (reblogOk : Nat → Bool) (acc : BotState × List Nat)
    (item : Notification) (sid : String) :
    hasKey (stepItem botAcct mi now reblogOk acc item).1.boosted_status_ids
        sid = true →
      hasKey acc.1.boosted_status_ids sid = true ∨
        ∃ s : Status, item.status = some s ∧ Nat.repr s.id = sid ∧
          reblogOk s.id = true := by
  unfold stepItem
  cases hd : shouldAct item acc.1 botAcct now mi <;>
    cases hstat : item.status <;>
    simp only []
  case act.some s =>
    by_cases hok : reblogOk s.id = true
    · simp only [hok, if_true]
      intro h
      rcases (hasKey_insertTs _ _ _ _).mp h with h1 | h1
      · exact Or.inr ⟨s, rfl, h1.symm, hok⟩
      · exact Or.inl h1
    · simp only [Bool.not_eq_true] at hok
      simp only [hok, Bool.false_eq_true, if_false]
      exact Or.inl
  all_goals exact Or.inl

/-- Folding the per-item step adds `boosted_status_ids` keys only for
batch items whose reblog succeeded. -/
theorem foldl_boosted_key (botAcct : String) (mi now : Int)
    (reblogOk : Nat → Bool) : ∀ (l : List Notification)
    (acc : BotState × List Nat) (sid : String),
    hasKey (l.foldl (stepItem botAcct mi now reblogOk) acc).1.boosted_status_ids
        sid = true →
      hasKey acc.1.boosted_status_ids sid = true ∨
        ∃ n ∈ l, ∃ s : Status, n.status = some s ∧ Nat.repr s.id = sid ∧
          reblogOk s.id = true := by
  intro l
  induction l with
  | nil => intro acc sid h; exact Or.inl h
  | cons x t ih =>
    intro acc sid h
    rw [List.foldl_cons] at h
    rcases ih (stepItem botAcct mi now reblogOk acc x) sid h with h1 | h1
    · rcases stepItem_boosted_key botAcct mi now reblogOk acc x sid h1 with
        h2 | ⟨s, hs, hrepr, hok⟩
      · exact Or.inl h2
      · exact Or.inr ⟨x, by simp, s, hs, hrepr, hok⟩
    · rcases h1 with ⟨n, hn, s, hs, hrepr, hok⟩
      exact Or.inr ⟨n, by simp [hn], s, hs, hrepr, hok⟩

/-- Pruning never touches the cursor field. -/
theorem pruneState_cursor (st : BotState) (now mi : Int) :
    (pruneState st now mi).last_notification_id = st.last_notification_id :=
  rfl

/-- On a null-cursor cycle with skip-existing on, a fetch fault escapes the
loop (the snapshot call is outside the try/except). -/
theorem runCycle_startup_fail (botAcct : String) (mi now : Int)
    (reblogOk : Nat → Bool) (st : BotState)
    (hnone : st.last_notification_id = none) :
    runCycle botAcct mi true now .fail reblogOk st = .fatal := by
  simp only [runCycle]
  rw [pruneState_cursor, hnone]

/-- On a null-cursor cycle with skip-existing on, a successful snapshot
fetch fast-forwards without processing. -/
theorem runCycle_startup_ok (botAcct : String) (mi now : Int)
    (reblogOk : Nat → Bool) (st : BotState) (items : List Notification)
    (hnone : st.last_notification_id = none) :
    runCycle botAcct mi true now (.ok items) reblogOk st =
      if items.isEmpty then
        CycleOutcome.slept (pruneState st now mi) false []
      else
        CycleOutcome.slept
          { pruneState st now mi with
            last_notification_id := some (maxIds items) } true [] := by
  simp only [runCycle]
  rw [pruneState_cursor, hnone]

/-- On any cycle that does not take the startup branch, the fetch is the
guarded since_id call followed by ordinary batch processing. -/
theorem runCycle_guarded (botAcct : String) (mi : Int) (skipE : Bool)
    (now : Int) (fetch : FetchResult) (reblogOk : Nat → Bool) (st : BotState)
    (hguard : ¬ (st.last_notification_id = none ∧ skipE = true)) :
    runCycle botAcct mi skipE now fetch reblogOk st =
      match fetch with
      | .fail => CycleOutcome.slept (pruneState st now mi) false []
      | .ok items =>
        if items.isEmpty then
          CycleOutcome.slept (pruneState st now mi) false []
        else
          CycleOutcome.slept
            (processBatch botAcct mi now reblogOk (pruneState st now mi)
              items).1 true
            (processBatch botAcct mi now reblogOk (pruneState st now mi)
              items).2 := by
  rcases hcur : st.last_notification_id with _ | c
  · cases skipE with
    | false =>
      simp only [runCycle]
      rw [pruneState_cursor, hcur]
    | true => exact absurd ⟨hcur, rfl⟩ hguard
  · simp only [runCycle]
    rw [pruneState_cursor, hcur]

/-- C2: the cursor is written with each processed item's id even when the
item is skipped or its reblog fails; a batch is processed in ascending
numeric id order (the processed sequence is a sorted permutation of the
fetch result); after a nonempty batch the cursor equals the batch maximum
regardless of fetch order; and across any loop cycle whose fetched ids
exceed the current cursor, a non-null cursor never decreases. -/
theorem cursor_monotone_batch :
    (∀ (botAcct : String) (mi now : Int) (reblogOk : Nat → Bool)
        (acc : BotState × List Nat) (item : Notification),
      (stepItem botAcct mi now reblogOk acc item).1.last_notification_id =
        some item.id) ∧
    (∀ batch : List Notification,
      (sortBatch batch).Pairwise (fun a b => a.id ≤ b.id) ∧
        (sortBatch batch).Perm batch) ∧
    (∀ (botAcct : String) (mi now : Int) (reblogOk : Nat → Bool)
        (st : BotState) (batch : List Notification), batch ≠ [] →
      (processBatch botAcct mi now reblogOk st batch).1.last_notification_id
        = some (maxIds batch)) ∧
    (∀ (botAcct : String) (mi : Int) (skipE : Bool) (now : Int)
        (fetch : FetchResult) (reblogOk : Nat → Bool) (st st' : BotState)
        (saved : Bool) (calls : List Nat),
      (∀ (items : List Notification) (c : Nat), fetch = .ok items →
        st.last_notification_id = some c → ∀ n ∈ items, c < n.id) →
      runCycle botAcct mi skipE now fetch reblogOk st =
        .slept st' saved calls →
      cursorLE st.last_notification_id st'.last_notification_id) := by
  have hbatch : ∀ (botAcct : String) (mi now : Int) (reblogOk : Nat → Bool)
      (st : BotState) (batch : List Notification), batch ≠ [] →
      (processBatch botAcct mi now reblogOk st batch).1.last_notification_id
        = some (maxIds batch) := by
    intro botAcct mi now reblogOk st batch hne
    have hsne : sortBatch batch ≠ [] := by
      intro h
      have hlen := (sortBatch_perm batch).length_eq
      rw [h] at hlen
      exact hne (List.length_eq_zero.mp hlen.symm)
    unfold processBatch
    rw [foldl_cursor_last botAcct mi now reblogOk (sortBatch batch)
      (st, []) hsne]
    rw [← maxIds_perm (sortBatch_perm batch),
      maxIds_sorted_last (sortBatch batch) (sortBatch_sorted batch) hsne]
  refine ⟨stepItem_cursor, fun batch => ⟨sortBatch_sorted batch,
    sortBatch_perm batch⟩, hbatch, ?_⟩
  intro botAcct mi skipE now fetch reblogOk st st' saved calls hcontract hrun
  intro c hc
  have hpc : (pruneState st now mi).last_notification_id = some c := hc
  rw [runCycle_guarded botAcct mi skipE now fetch reblogOk st
    (by simp [hc])] at hrun
  cases fetch with
  | fail =>
    cases hrun
    exact ⟨c, hpc, Nat.le_refl c⟩
  | ok items =>
    have hrun2 : (if items.isEmpty = true then
        CycleOutcome.slept (pruneState st now mi) false []
      else
        CycleOutcome.slept
          (processBatch botAcct mi now reblogOk (pruneState st now mi)
            items).1 true
          (processBatch botAcct mi now reblogOk (pruneState st now mi)
            items).2) = CycleOutcome.slept st' saved calls := hrun
    by_cases hemp : items.isEmpty = true
    · rw [if_pos hemp] at hrun2
      cases hrun2
      exact ⟨c, hpc, Nat.le_refl c⟩
    · rw [if_neg hemp] at hrun2
      cases hrun2
      have hne : items ≠ [] := by
        intro h
        exact hemp (by simp [h])
      have hsne : sortBatch items ≠ [] := by
        intro h
        have hlen := (sortBatch_perm items).length_eq
        rw [h] at hlen
        exact hne (List.length_eq_zero.mp hlen.symm)
      have hcur := foldl_cursor_last botAcct mi now reblogOk
        (sortBatch items) (pruneState st now mi, []) hsne
      have hmem : (sortBatch items).getLast hsne ∈ items :=
        (sortBatch_perm items).mem_iff.mp (List.getLast_mem hsne)
      have hlt := hcontract items c rfl hc _ hmem
      exact ⟨((sortBatch items).getLast hsne).id, hcur, Nat.le_of_lt hlt⟩

/-- C2 witness: the spec example batch with identifiers 5, 2, 9 delivered
unsorted ends with the cursor at 9. -/
theorem cursor_monotone_batch_witness :
    (processBatch "bot" 3600 1000 (fun _ => true) ⟨some 1, [], []⟩
        [⟨5, "follow", none⟩, ⟨2, "mention", none⟩,
          ⟨9, "follow", none⟩]).1.last_notification_id = some 9 :=
  cursor_monotone_batch.2.2.1 "bot" 3600 1000 (fun _ => true) ⟨some 1, [], []⟩
    [⟨5, "follow", none⟩, ⟨2, "mention", none⟩, ⟨9, "follow", none⟩]
    (by simp)

/-- C3: when the reblog call fails for an event, neither
`last_boost_per_user` nor `boosted_status_ids` is changed by that event's
step; the fold continues with the next event regardless; and every key of
`boosted_status_ids` after a batch was either present before or stems from
a batch item whose reblog call succeeded. -/
theorem record_only_on_success :
    (∀ (botAcct : String) (mi now : Int) (reblogOk : Nat → Bool)
        (acc : BotState × List Nat) (item : Notification),
      (∀ s : Status, item.status = some s → reblogOk s.id = false) →
      (stepItem botAcct mi now reblogOk acc item).1.last_boost_per_user =
          acc.1.last_boost_per_user ∧
        (stepItem botAcct mi now reblogOk acc item).1.boosted_status_ids =
          acc.1.boosted_status_ids) ∧
    (∀ (botAcct : String) (mi now : Int) (reblogOk : Nat → Bool)
        (acc : BotState × List Nat) (item : Notification)
        (rest : List Notification),
      List.foldl (stepItem botAcct mi now reblogOk) acc (item :: rest) =
        List.foldl (stepItem botAcct mi now reblogOk)
          (stepItem botAcct mi now reblogOk acc item) rest) ∧
    (∀ (botAcct : String) (mi now : Int) (reblogOk : Nat → Bool)
        (st : BotState) (batch : List Notification) (sid : String),
      hasKey
          (processBatch botAcct mi now reblogOk st batch).1.boosted_status_ids
          sid = true →
      hasKey st.boosted_status_ids sid = true ∨
        ∃ n ∈ batch, ∃ s : Status, n.status = some s ∧
          Nat.repr s.id = sid ∧ reblogOk s.id = true) := by
  refine ⟨?_, fun _ _ _ _ _ _ _ => rfl, ?_⟩
  · intro botAcct mi now reblogOk acc item hfail
    constructor <;>
      (unfold stepItem
       cases hd : shouldAct item acc.1 botAcct now mi <;>
         cases hstat : item.status <;>
         first
           | rfl
           | simp [hfail _ hstat])
  · intro botAcct mi now reblogOk st batch sid h
    unfold processBatch at h
    rcases foldl_boosted_key botAcct mi now reblogOk (sortBatch batch)
        (st, []) sid h with h1 | ⟨n, hn, hrest⟩
    · exact Or.inl h1
    · exact Or.inr ⟨n, (sortBatch_perm batch).mem_iff.mp hn, hrest⟩

/-- C3 witness: a failing reblog call leaves both tables of the fresh state
empty. -/
theorem record_only_on_success_witness :
    (stepItem "bot" 3600 1000 (fun _ => false) (freshState, [])
        ⟨5, "mention", some ⟨6, some "alice"⟩⟩).1.last_boost_per_user = [] ∧
      (stepItem "bot" 3600 1000 (fun _ => false) (freshState, [])
        ⟨5, "mention", some ⟨6, some "alice"⟩⟩).1.boosted_status_ids = [] :=
  record_only_on_success.1 "bot" 3600 1000 (fun _ => false) (freshState, [])
    ⟨5, "mention", some ⟨6, some "alice"⟩⟩ (fun _ _ => rfl)

/-- C4 counterexample: the claim says every fetch fault, including the
startup skip-existing snapshot fetch, transitions the process to sleeping
with state unchanged; but that fetch (main.py line 101) is outside the
try/except, so on the null-cursor startup cycle a fetch fault escapes
`main` (fatal), not a sleep transition. -/
theorem startup_fetch_fault_fatal_cex :
    runCycle "bot" 3600 true 1000 .fail (fun _ => true) freshState =
        .fatal ∧
      CycleOutcome.fatal ≠ .slept freshState false [] := by
  exact ⟨rfl, by simp⟩

/-- C4 amended: on any cycle that does not take the startup skip-existing
branch, a fetch fault is non-fatal: the cycle aborts to sleeping, nothing
is persisted, no reblog is attempted, and the state carried forward is
exactly the cycle-initial pruned state, whose cursor is unchanged.  (The
startup snapshot fetch itself is unguarded and a fault there is fatal, and
the cycle-initial pruning has already run by the time any fetch happens.) -/
theorem guarded_fetch_fault_preserves_state :
    ∀ (botAcct : String) (mi : Int) (skipE : Bool) (now : Int)
      (reblogOk : Nat → Bool) (st : BotState),
      ¬ (st.last_notification_id = none ∧ skipE = true) →
      runCycle botAcct mi skipE now .fail reblogOk st =
          .slept (pruneState st now mi) false [] ∧
        (pruneState st now mi).last_notification_id =
          st.last_notification_id := by
  intro botAcct mi skipE now reblogOk st hguard
  exact ⟨runCycle_guarded botAcct mi skipE now .fail reblogOk st hguard, rfl⟩

/-- C4 witness: with a non-null cursor, a failed fetch yields the sleeping
outcome with only the pruning applied and the cursor intact. -/
theorem guarded_fetch_fault_preserves_state_witness :
    runCycle "bot" 3600 true 1000 .fail (fun _ => true) ⟨some 7, [], []⟩ =
        .slept (pruneState ⟨some 7, [], []⟩ 1000 3600) false [] ∧
      (pruneState ⟨some 7, [], []⟩ 1000 3600).last_notification_id =
        some 7 :=
  guarded_fetch_fault_preserves_state "bot" 3600 true 1000 (fun _ => true)
    ⟨some 7, [], []⟩ (by simp)

/-- C7: on a null-cursor cycle with skip-existing enabled, a nonempty
snapshot sets the cursor to the maximum identifier observed (stored as its
decimal string), persists, and performs zero reblog calls; an empty
snapshot leaves the cursor null and persists nothing, deferring the
fast-forward. -/
theorem startup_skip_existing :
    ∀ (botAcct : String) (mi now : Int) (reblogOk : Nat → Bool)
      (st : BotState) (items : List Notification),
      st.last_notification_id = none →
      (items ≠ [] →
        runCycle botAcct mi true now (.ok items) reblogOk st =
            .slept { pruneState st now mi with
                      last_notification_id := some (maxIds items) } true [] ∧
          cursorStored { pruneState st now mi with
                          last_notification_id := some (maxIds items) } =
            some (Nat.repr (maxIds items))) ∧
      (items = [] →
        runCycle botAcct mi true now (.ok items) reblogOk st =
            .slept (pruneState st now mi) false [] ∧
          (pruneState st now mi).last_notification_id = none) := by
  intro botAcct mi now reblogOk st items hnone
  constructor
  · intro hne
    refine ⟨?_, rfl⟩
    rw [runCycle_startup_ok botAcct mi now reblogOk st items hnone,
      if_neg (by simp [hne])]
  · intro hemp
    subst hemp
    refine ⟨?_, hnone⟩
    rw [runCycle_startup_ok botAcct mi now reblogOk st [] hnone]
    rfl

/-- C7 witness: existing events with maximum identifier 42 and no prior
cursor give a first cycle ending with the cursor stored as "42" and no
reblog calls. -/
theorem startup_skip_existing_witness :
    runCycle "bot" 3600 true 1000
        (.ok [⟨7, "mention", none⟩, ⟨42, "mention", none⟩,
          ⟨41, "follow", none⟩]) (fun _ => true) freshState =
      CycleOutcome.slept ⟨some 42, [], []⟩ true [] ∧
    cursorStored ⟨some 42, [], []⟩ = some "42" := by
  have h := (startup_skip_existing "bot" 3600 1000 (fun _ => true) freshState
    [⟨7, "mention", none⟩, ⟨42, "mention", none⟩, ⟨41, "follow", none⟩]
    rfl).1 (by simp)
  exact ⟨h.1, h.2⟩

end StackBot
